import Mathlib

/-!
Verification of the dynamic-db core: the permission rule evaluator and
authorization gate (src/src/framework/rlsManager.ts), the query compiler
(src/sever-sdk(2).ts, QueryHandler.buildQuery and buildWindowFunction), the
validation/complexity analyzer and cache layer (QueryMiddleware), and the
mutation endpoints (Framework.endpoints.data).  TypeScript runtime values are
shallowly embedded: JS values become the inductive `Value` (with `undefined`
represented as `Option.none` at use sites), records become association lists,
JS truthiness is made explicit, and thrown exceptions become `Except`.
-/

/-- A JSON-style runtime value as it appears in rows, rule payloads and user
contexts.  JS objects other than arrays do not occur in the compared positions
of this code and are omitted. -/
inductive Value where
  | vNull
  | vBool (b : Bool)
  | vNum (n : Int)
  | vStr (s : String)
  | vArr (vs : List Value)
deriving Repr, BEq

/-- A data row (`Record<string, any>`): an association list from field names
to values; a missing key is JS `undefined`, i.e. `Option.none`. -/
abbrev Row := List (String × Value)

/-- Row field access, `row[field]`. -/
def Row.getField (row : Row) (field : String) : Option Value :=
  (row.find? (fun p => p.1 == field)).map (fun p => p.2)

/-- JS truthiness of a possibly-undefined value (`if (x)`). -/
def truthy : Option Value → Bool
  | none => false
  | some .vNull => false
  | some (.vBool b) => b
  | some (.vNum n) => n != 0
  | some (.vStr s) => s != ""
  | some (.vArr _) => true

/-- JS strict equality `===` on defined values.  Primitives compare by value;
arrays compare by object reference, and the two operands of the comparison in
`evaluatePermission` (a row field and a rule/context value) are always distinct
objects, so array comparison is `false`. -/
def strictEq : Value → Value → Bool
  | .vNull, .vNull => true
  | .vBool a, .vBool b => a == b
  | .vNum a, .vNum b => a == b
  | .vStr a, .vStr b => a == b
  | _, _ => false

/-- JS strict equality lifted to possibly-undefined operands:
`undefined === undefined` is `true`. -/
def strictEqOpt : Option Value → Option Value → Bool
  | none, none => true
  | some a, some b => strictEq a b
  | _, _ => false

/-- `Array.prototype.includes(dataValue)` over the comparison array
(SameValueZero agrees with `strictEq` on the values that occur here);
`includes(undefined)` is `false` because the embedded arrays contain no
`undefined` entries. -/
def arrIncludes (vs : List Value) : Option Value → Bool
  | some d => vs.any (fun v => strictEq v d)
  | none => false

/-- `x || d` on an optional string (JS `||` treats `""` as falsy). -/
def jsOrStr (o : Option String) (d : String) : String :=
  match o with
  | some s => if s == "" then d else s
  | none => d

/-- The caller's user context (src/unnamed/part_005 `UserContext`); `userId`
may be absent or falsy at runtime, which the evaluator treats as a guest. -/
structure UserContext where
  userId : Option Value
  labels : List String
  teams : List String
  permissions : Option (List String) := none
  role : Option String := none
deriving Repr, BEq

/-- `userContext[key]` for a `UserContextFields` key name. -/
def UserContext.getField (ctx : UserContext) (key : String) : Option Value :=
  if key == "userId" then ctx.userId
  else if key == "labels" then some (Value.vArr (ctx.labels.map Value.vStr))
  else if key == "teams" then some (Value.vArr (ctx.teams.map Value.vStr))
  else if key == "permissions" then
    ctx.permissions.map (fun ps => Value.vArr (ps.map Value.vStr))
  else if key == "role" then ctx.role.map Value.vStr
  else none

/-- The `allow` tag of a permission rule (src/unnamed/part_005
`PermissionRule.allow`); `priv` embeds the source tag `"private"`. -/
inductive RuleAllow where
  | public | priv | role | auth | guest | labels | teams | static
  | fieldCheck | customSql
deriving Repr, BEq, DecidableEq

/-- A `fieldCheck` payload: compare `row[field]` against a literal or a user
context field (src/unnamed/part_005 `FieldCheck`). -/
structure FieldCheck where
  field : String
  operator : String
  valueType : String
  value : Value
deriving Repr, BEq

/-- A permission rule; every payload field is optional exactly as in the
source type, so a rule tagged one way may still carry (and, via the switch
fallthrough, consult) another tag's payload. -/
structure PermissionRule where
  allow : RuleAllow
  labels : Option (List String) := none
  teams : Option (List String) := none
  static : Option Bool := none
  customSql : Option String := none
  fieldCheck : Option FieldCheck := none
  roles : Option (List String) := none
deriving Repr, BEq

/-- Characters matched by the interpolation pattern `[a-zA-Z_]` in
`rlsManager.ts`. -/
def isSqlKeyChar (c : Char) : Bool :=
  (c ≥ 'a' && c ≤ 'z') || (c ≥ 'A' && c ≤ 'Z') || c == '_'

/-- The context keys referenced as `:key` in a customSql template, in template
order, as extracted by the replace callback. -/
def extractSqlKeys : List Char → List String
  | [] => []
  | c :: rest =>
    if c == ':' then
      let key := rest.takeWhile isSqlKeyChar
      if key.isEmpty then extractSqlKeys rest
      else String.mk key :: extractSqlKeys (rest.drop key.length)
    else extractSqlKeys rest
termination_by l => l.length
decreasing_by
  · simp only [List.length_cons]; omega
  · simp only [List.length_drop, List.length_cons]; omega
  · simp only [List.length_cons]; omega

/-- The `role` case of the rule switch: deny on a missing or empty role list,
allow only when the (truthy) context role is included. -/
def roleCase (rule : PermissionRule) (ctx : UserContext) : Bool :=
  match rule.roles with
  | none => false
  | some roles =>
    if roles.isEmpty then false
    else
      match ctx.role with
      | some r => r != "" && roles.contains r
      | none => false

/-- The `labels` case body: allow iff the rule carries a label list that
intersects the context labels; otherwise fall out of the switch (`none`). -/
def labelsCase (rule : PermissionRule) (ctx : UserContext) : Option Bool :=
  match rule.labels with
  | some required => if ctx.labels.any (fun l => required.contains l) then some true else none
  | none => none

/-- The `guest` case: allow when the context has no (truthy) identity.  The
source has no `break` here, so on a present identity control falls through
into the `labels` case body. -/
def guestCase (rule : PermissionRule) (ctx : UserContext) : Option Bool :=
  if !truthy ctx.userId then some true else labelsCase rule ctx

/-- The `auth` case: allow on a (truthy) identity.  The source has no `break`
here either, so an identity-less context falls through into the `guest`
case, which then allows. -/
def authCase (rule : PermissionRule) (ctx : UserContext) : Option Bool :=
  if truthy ctx.userId then some true else guestCase rule ctx

/-- The `teams` case body. -/
def teamsCase (rule : PermissionRule) (ctx : UserContext) : Option Bool :=
  match rule.teams with
  | some required => if ctx.teams.any (fun t => required.contains t) then some true else none
  | none => none

/-- The `fieldCheck` case body: compare the row field with the literal or the
named user context field under the rule's operator; allow on a match, fall
through (`none`) otherwise or on an unknown operator. -/
def fieldCheckCase (rule : PermissionRule) (ctx : UserContext) (row : Row) : Option Bool :=
  match rule.fieldCheck with
  | none => none
  | some fc =>
    let dataValue := Row.getField row fc.field
    let comparisonValue : Option Value :=
      if fc.valueType == "userContext" then
        match fc.value with
        | .vStr key => ctx.getField key
        | _ => none
      else some fc.value
    if fc.operator == "===" then
      if strictEqOpt dataValue comparisonValue then some true else none
    else if fc.operator == "!==" then
      if !strictEqOpt dataValue comparisonValue then some true else none
    else if fc.operator == "in" then
      match comparisonValue with
      | some (.vArr vs) => if arrIncludes vs dataValue then some true else none
      | _ => none
    else if fc.operator == "notIn" then
      match comparisonValue with
      | some (.vArr vs) => if !arrIncludes vs dataValue then some true else none
      | _ => none
    else none

/-- The `customSql` case body: interpolating the template throws on the first
referenced context key that is undefined, otherwise the (simulated) execution
allows. -/
def customSqlCase (rule : PermissionRule) (ctx : UserContext) : Except String (Option Bool) :=
  match rule.customSql with
  | none => Except.ok none
  | some sql =>
    match (extractSqlKeys sql.toList).find? (fun k => (ctx.getField k).isNone) with
    | some k => Except.error ("Missing context value for key: " ++ k)
    | none => Except.ok (some true)

/-- One iteration of the rule loop: `ok (some b)` is a `return b`, `ok none`
falls through to the next rule, `error` is a thrown exception.  The `auth` and
`guest` arms deliberately reproduce the source's missing `break`s. -/
def ruleStep (rule : PermissionRule) (ctx : UserContext) (row : Row) :
    Except String (Option Bool) :=
  match rule.allow with
  | .public => Except.ok (some true)
  | .priv => Except.ok (some false)
  | .role => Except.ok (some (roleCase rule ctx))
  | .auth => Except.ok (authCase rule ctx)
  | .guest => Except.ok (guestCase rule ctx)
  | .labels => Except.ok (labelsCase rule ctx)
  | .teams => Except.ok (teamsCase rule ctx)
  | .static => Except.ok (match rule.static with | some b => some b | none => none)
  | .fieldCheck => Except.ok (fieldCheckCase rule ctx row)
  | .customSql => customSqlCase rule ctx

/-- `evaluatePermission` (rlsManager.ts): scan the rules in order, return the
first definitive decision, default to deny. -/
def evaluatePermission (rules : List PermissionRule) (ctx : UserContext)
    (row : Row) : Except String Bool :=
  match rules with
  | [] => Except.ok false
  | rule :: rest =>
    match ruleStep rule ctx row with
    | Except.error e => Except.error e
    | Except.ok (some b) => Except.ok b
    | Except.ok none => evaluatePermission rest ctx row

/-- One of the four data operations. -/
inductive Operation where
  | SELECT | INSERT | UPDATE | DELETE
deriving Repr, BEq, DecidableEq

/-- `TablePermissions`: per-operation optional rule lists; absence of an entry
is distinct from an empty list. -/
structure TablePermissions where
  operations : Operation → Option (List PermissionRule)

/-- The errors thrown by `enforcePermissions` and the data endpoints. -/
inductive EnforceError where
  | operationNotAllowed (operation : Operation) (tableName : String)
  | accessDenied (operation : Operation) (tableName : String)
  | missingContext (msg : String)
  | invalidBody
deriving Repr, BEq

/-- `rows.filter(row => evaluatePermission(rules, userContext, row))` with a
possibly-throwing predicate: the first thrown error propagates. -/
def filterRows (rules : List PermissionRule) (ctx : UserContext) :
    List Row → Except String (List Row)
  | [] => Except.ok []
  | row :: rest =>
    match evaluatePermission rules ctx row with
    | Except.error e => Except.error e
    | Except.ok b =>
      match filterRows rules ctx rest with
      | Except.error e => Except.error e
      | Except.ok out => Except.ok (if b then row :: out else out)

/-- `enforcePermissions` (rlsManager.ts): the authorization gate.  The fetched
`TablePermissions` (or its absence) is passed in place of the permission-store
lookup. -/
def enforcePermissions (tableName : String) (operation : Operation)
    (rows : List Row) (userContext : UserContext)
    (tablePermissions : Option TablePermissions) : Except EnforceError (List Row) :=
  match tablePermissions with
  | none => Except.error (EnforceError.operationNotAllowed operation tableName)
  | some tp =>
    match tp.operations operation with
    | none => Except.error (EnforceError.operationNotAllowed operation tableName)
    | some rules =>
      if rules.isEmpty then Except.ok rows
      else if !(rules.any (fun r => r.allow == RuleAllow.fieldCheck)) then
        match evaluatePermission rules userContext [] with
        | Except.error e => Except.error (EnforceError.missingContext e)
        | Except.ok true => Except.ok rows
        | Except.ok false => Except.error (EnforceError.accessDenied operation tableName)
      else
        match filterRows rules userContext rows with
        | Except.error e => Except.error (EnforceError.missingContext e)
        | Except.ok out => Except.ok out

/-- A storage write issued through `hooks.mutate` (part_007): the payload of
an insert, update or delete. -/
inductive WriteOp where
  | insertRecords (records : List Row)
  | updateRecord (id : Value) (data : Row)
  | deleteRecord (id : Value)
deriving Repr, BEq

/-- The `data.create` endpoint (part_007, Framework.endpoints.data.create)
with RLS state made explicit: returns the endpoint's result together with the
list of writes issued to storage.  When `enforceRls` is set and a user is
present, the handler returns the gate's decision before the `hooks.mutate`
call is ever reached. -/
def createHandler (enforceRls : Bool) (tableName : String) (records : List Row)
    (user : Option UserContext) (tablePermissions : Option TablePermissions) :
    Except EnforceError (List Row) × List WriteOp :=
  if records.isEmpty || records.any (fun r => r.isEmpty) then
    (Except.error EnforceError.invalidBody, [])
  else
    match enforceRls, user with
    | true, some u =>
      (enforcePermissions tableName Operation.INSERT records u tablePermissions, [])
    | _, _ => (Except.ok records, [WriteOp.insertRecords records])

/-- The `data.update` endpoint (part_007): the request's `data` payload is
handed to the gate as the row list; under RLS the handler again returns before
any write. -/
def updateHandler (enforceRls : Bool) (tableName : String) (id : Value)
    (data : List Row) (user : Option UserContext)
    (tablePermissions : Option TablePermissions) :
    Except EnforceError (List Row) × List WriteOp :=
  match enforceRls, user with
  | true, some u =>
    (enforcePermissions tableName Operation.UPDATE data u tablePermissions, [])
  | _, _ =>
    (Except.ok data, data.map (fun d => WriteOp.updateRecord id d))

/-- The `data.delete` endpoint (part_007): the record is first fetched (a
read), then under RLS the handler returns the gate's decision on it before the
delete write. -/
def deleteHandler (enforceRls : Bool) (tableName : String) (id : Value)
    (fetched : List Row) (user : Option UserContext)
    (tablePermissions : Option TablePermissions) :
    Except EnforceError (List Row) × List WriteOp :=
  match enforceRls, user with
  | true, some u =>
    (enforcePermissions tableName Operation.DELETE fetched u tablePermissions, [])
  | _, _ => (Except.ok fetched, [WriteOp.deleteRecord id])

/-- A raw where clause (sever-sdk `WhereClause`). -/
structure WhereClause where
  field : String
  operator : String
  value : Value
  boolean : Option String := none
deriving Repr, BEq

/-- A between clause (sever-sdk `WhereBetweenClause`); `value` is the
`[low, high]` pair. -/
structure WhereBetweenClause where
  field : String
  value : Value × Value
  boolean : Option String := none
deriving Repr, BEq

/-- An order-by clause (sever-sdk `OrderByClause`). -/
structure OrderByClause where
  field : String
  direction : Option String := none
deriving Repr, BEq

/-- A having clause (sever-sdk `HavingClause`). -/
structure HavingClause where
  field : String
  operator : String
  value : Value
deriving Repr, BEq

/-- An aggregate request (sever-sdk `AggregateOptions`); `type` is kept as the
raw string so unknown aggregate types can be represented. -/
structure AggregateOptions where
  type : String
  field : String
  aliasName : Option String := none
deriving Repr, BEq

/-- A raw SQL fragment with bindings (sever-sdk `RawExpression`). -/
structure RawExpression where
  sql : String
  bindings : Option (List Value) := none
deriving Repr, BEq

/-- An entry of a `whereGroups` tree: either a plain clause or a nested group
(`{type, clauses}`), as the middleware's recursive complexity walk sees it. -/
inductive WhereGroupEntry where
  | leaf (field : String) (operator : String) (value : Value) (boolean : Option String)
  | node (type : String) (clauses : List WhereGroupEntry)
deriving Repr, BEq

/-- `entry.clauses` as optional-field access: defined only on nested groups. -/
def entryClauses : WhereGroupEntry → Option (List WhereGroupEntry)
  | .node _ cs => some cs
  | .leaf _ _ _ _ => none

/-- A simple window function (sever-sdk `WindowFunction`). -/
structure WindowFunction where
  type : String
  field : Option String := none
  aliasName : String
  partitionBy : Option (List String) := none
  orderBy : Option (List OrderByClause) := none
  frameClause : Option String := none
deriving Repr, BEq

/-- A frame bound of an advanced window (`"UNBOUNDED PRECEDING"`,
`"CURRENT ROW"` or a number). -/
inductive FrameBound where
  | str (s : String)
  | num (n : Int)
deriving Repr, BEq

/-- Template-literal stringification of a frame bound. -/
def FrameBound.render : FrameBound → String
  | .str s => s
  | .num n => toString n

/-- JS truthiness of a frame bound (`0` and `""` are falsy, so
`frame.end || "CURRENT ROW"` replaces them). -/
def FrameBound.jsTruthy : FrameBound → Bool
  | .str s => s != ""
  | .num n => n != 0

/-- The structured frame of an advanced window (`over.frame`); `endB` embeds
the source field `end`. -/
structure FrameSpec where
  type : String
  start : FrameBound
  endB : Option FrameBound := none
deriving Repr, BEq

/-- The `over` part of an advanced window. -/
structure OverSpec where
  partitionBy : Option (List String) := none
  orderBy : Option (List OrderByClause) := none
  frame : Option FrameSpec := none
deriving Repr, BEq

/-- An advanced window function (sever-sdk `WindowFunctionAdvanced`). -/
structure WindowFunctionAdvanced where
  type : String
  field : Option String := none
  aliasName : String
  over : Option OverSpec := none
  filter : Option (List WhereClause) := none
deriving Repr, BEq

/-- The cache configuration (`CacheConfig`).  The source's optional
`condition` is a predicate over the query params; it is embedded by its
boolean value at the params it is applied to (a function-typed field would be
a non-positive occurrence inside the query IR). -/
structure CacheConfig where
  ttl : Nat
  key : Option String := none
  tags : Option (List String) := none
  condition : Option Bool := none
deriving Repr, BEq

mutual
/-- The query IR (sever-sdk `QueryParams`): one constructor holding every
optional field of the wire shape, in source declaration order. -/
inductive QueryParams where
  | mk
    (filter : Option (List (String × Value)))
    (whereRaw : Option (List WhereClause))
    (whereBetween : Option (List WhereBetweenClause))
    (whereNull : Option (List String))
    (whereNotNull : Option (List String))
    (whereIn : Option (List (String × List Value)))
    (whereNotIn : Option (List (String × List Value)))
    (whereExists : Option (List RawExpression))
    (whereGroups : Option (List WhereGroupEntry))
    (orderBy : Option (List OrderByClause))
    (groupBy : Option (List String))
    (having : Option (List HavingClause))
    (aggregates : Option (List AggregateOptions))
    (rawExpressions : Option (List RawExpression))
    (limit : Option Int)
    (offset : Option Int)
    (windowFunctions : Option (List WindowFunction))
    (ctes : Option (List CTE))
    (recursiveCtes : Option (List RecursiveCTE))
    (advancedWindows : Option (List WindowFunctionAdvanced))
    (cache : Option CacheConfig)

/-- A common table expression (sever-sdk `CTE`) with its nested sub-query IR. -/
inductive CTE where
  | mk (name : String) (query : QueryParams) (columns : Option (List String))

/-- A recursive CTE (sever-sdk `RecursiveCTE`). -/
inductive RecursiveCTE where
  | mk (name : String) (initialQuery : QueryParams) (recursiveQuery : QueryParams)
       (unionAll : Option Bool)
end

def QueryParams.filter : QueryParams → Option (List (String × Value))
  | .mk x _ _ _ _ _ _ _ _ _ _ _ _ _ _ _ _ _ _ _ _ => x

def QueryParams.whereRaw : QueryParams → Option (List WhereClause)
  | .mk _ x _ _ _ _ _ _ _ _ _ _ _ _ _ _ _ _ _ _ _ => x

def QueryParams.whereBetween : QueryParams → Option (List WhereBetweenClause)
  | .mk _ _ x _ _ _ _ _ _ _ _ _ _ _ _ _ _ _ _ _ _ => x

def QueryParams.whereNull : QueryParams → Option (List String)
  | .mk _ _ _ x _ _ _ _ _ _ _ _ _ _ _ _ _ _ _ _ _ => x

def QueryParams.whereNotNull : QueryParams → Option (List String)
  | .mk _ _ _ _ x _ _ _ _ _ _ _ _ _ _ _ _ _ _ _ _ => x

def QueryParams.whereIn : QueryParams → Option (List (String × List Value))
  | .mk _ _ _ _ _ x _ _ _ _ _ _ _ _ _ _ _ _ _ _ _ => x

def QueryParams.whereNotIn : QueryParams → Option (List (String × List Value))
  | .mk _ _ _ _ _ _ x _ _ _ _ _ _ _ _ _ _ _ _ _ _ => x

def QueryParams.whereExists : QueryParams → Option (List RawExpression)
  | .mk _ _ _ _ _ _ _ x _ _ _ _ _ _ _ _ _ _ _ _ _ => x

def QueryParams.whereGroups : QueryParams → Option (List WhereGroupEntry)
  | .mk _ _ _ _ _ _ _ _ x _ _ _ _ _ _ _ _ _ _ _ _ => x

def QueryParams.orderBy : QueryParams → Option (List OrderByClause)
  | .mk _ _ _ _ _ _ _ _ _ x _ _ _ _ _ _ _ _ _ _ _ => x

def QueryParams.groupBy : QueryParams → Option (List String)
  | .mk _ _ _ _ _ _ _ _ _ _ x _ _ _ _ _ _ _ _ _ _ => x

def QueryParams.having : QueryParams → Option (List HavingClause)
  | .mk _ _ _ _ _ _ _ _ _ _ _ x _ _ _ _ _ _ _ _ _ => x

def QueryParams.aggregates : QueryParams → Option (List AggregateOptions)
  | .mk _ _ _ _ _ _ _ _ _ _ _ _ x _ _ _ _ _ _ _ _ => x

def QueryParams.rawExpressions : QueryParams → Option (List RawExpression)
  | .mk _ _ _ _ _ _ _ _ _ _ _ _ _ x _ _ _ _ _ _ _ => x

def QueryParams.limit : QueryParams → Option Int
  | .mk _ _ _ _ _ _ _ _ _ _ _ _ _ _ x _ _ _ _ _ _ => x

def QueryParams.offset : QueryParams → Option Int
  | .mk _ _ _ _ _ _ _ _ _ _ _ _ _ _ _ x _ _ _ _ _ => x

def QueryParams.windowFunctions : QueryParams → Option (List WindowFunction)
  | .mk _ _ _ _ _ _ _ _ _ _ _ _ _ _ _ _ x _ _ _ _ => x

def QueryParams.ctes : QueryParams → Option (List CTE)
  | .mk _ _ _ _ _ _ _ _ _ _ _ _ _ _ _ _ _ x _ _ _ => x

def QueryParams.recursiveCtes : QueryParams → Option (List RecursiveCTE)
  | .mk _ _ _ _ _ _ _ _ _ _ _ _ _ _ _ _ _ _ x _ _ => x

def QueryParams.advancedWindows : QueryParams → Option (List WindowFunctionAdvanced)
  | .mk _ _ _ _ _ _ _ _ _ _ _ _ _ _ _ _ _ _ _ x _ => x

def QueryParams.cache : QueryParams → Option CacheConfig
  | .mk _ _ _ _ _ _ _ _ _ _ _ _ _ _ _ _ _ _ _ _ x => x

def CTE.name : CTE → String
  | .mk x _ _ => x

def CTE.query : CTE → QueryParams
  | .mk _ x _ => x

def CTE.columns : CTE → Option (List String)
  | .mk _ _ x => x

def RecursiveCTE.name : RecursiveCTE → String
  | .mk x _ _ _ => x

def RecursiveCTE.initialQuery : RecursiveCTE → QueryParams
  | .mk _ x _ _ => x

def RecursiveCTE.recursiveQuery : RecursiveCTE → QueryParams
  | .mk _ _ x _ => x

def RecursiveCTE.unionAll : RecursiveCTE → Option Bool
  | .mk _ _ _ x => x

/-- The empty IR: every field absent. -/
def QueryParams.empty : QueryParams :=
  .mk none none none none none none none none none none none
      none none none none none none none none none none

/-- Comma join as produced by `Array.prototype.join(",")`. -/
def joinComma (l : List String) : String := String.intercalate "," l

/-- The function-call part of a simple window select (buildQuery): knex raw
`??` placeholders are rendered by their identifier binding.  For `row_number`
the source never wraps the clause in a function call, so the fragment is just
the bound field or `*`. -/
def simpleWindowClause (wf : WindowFunction) : String :=
  let inner := jsOrStr wf.field "*"
  if wf.type != "row_number" then wf.type ++ "(" ++ inner ++ ")" else inner

/-- The OVER fragment of a simple window select (buildQuery), with each
optional sub-part appended only when present and non-empty. -/
def simpleWindowOver (wf : WindowFunction) : String :=
  let s := "OVER("
  let s := match wf.partitionBy with
    | some pb => if pb.isEmpty then s else s ++ " PARTITION BY " ++ joinComma pb
    | none => s
  let s := match wf.orderBy with
    | some ob =>
      if ob.isEmpty then s
      else s ++ " ORDER BY " ++
        joinComma (ob.map (fun o => o.field ++ " " ++ jsOrStr o.direction "asc"))
    | none => s
  let s := match wf.frameClause with
    | some f => if f != "" then s ++ " " ++ f else s
    | none => s
  s ++ ")"

/-- The full select fragment of a simple window function
(`windowClause OVER(...) as alias`). -/
def simpleWindowSelect (wf : WindowFunction) : String :=
  simpleWindowClause wf ++ " " ++ simpleWindowOver wf ++ " as " ++ wf.aliasName

/-- `QueryHandler.buildWindowFunction` (sever-sdk): the advanced window select
fragment. -/
def buildWindowFunction (wf : WindowFunctionAdvanced) : String :=
  let fnCall :=
    if wf.type == "row_number" then "ROW_NUMBER()"
    else wf.type ++ "(" ++ jsOrStr wf.field "*" ++ ")"
  let over := "OVER ("
  let pb := match wf.over with
    | some o => (o.partitionBy).getD []
    | none => []
  let over := if pb.isEmpty then over else over ++ "PARTITION BY " ++ joinComma pb
  let ob := match wf.over with
    | some o => (o.orderBy).getD []
    | none => []
  let over :=
    if ob.isEmpty then over
    else over ++ " ORDER BY " ++
      joinComma (ob.map (fun o => o.field ++ " " ++ jsOrStr o.direction "ASC"))
  let fr := match wf.over with
    | some o => o.frame
    | none => none
  let over := match fr with
    | some f =>
      over ++ " " ++ f.type ++ " BETWEEN " ++ f.start.render ++ " AND " ++
        (match f.endB with
         | some e => if e.jsTruthy then e.render else "CURRENT ROW"
         | none => "CURRENT ROW")
    | none => over
  fnCall ++ " " ++ (over ++ ")") ++ " AS " ++ wf.aliasName

/-- One abstract clause application issued by `buildQuery` against the
query-builder capability, carrying its payload.  CTE constructors carry the
sub-query IR that the registered callback would in turn compile. -/
inductive QueryOp where
  | withCte (name : String) (query : QueryParams) (columns : Option (List String))
  | withRecursiveCte (name : String) (initialQuery : QueryParams)
      (recursiveQuery : QueryParams) (unionAll : Option Bool)
  | selectWindow (sql : String)
  | selectAdvancedWindow (sql : String)
  | whereFilter (filter : List (String × Value))
  | whereRawSql (sql : String) (bindings : Option (List Value))
  | aggregateApply (type : String) (field : String) (column : String)
  | whereCond (field : String) (operator : String) (value : Value)
  | whereBetweenApply (field : String) (low : Value) (high : Value)
  | whereNullApply (field : String)
  | whereNotNullApply (field : String)
  | whereInApply (field : String) (values : List Value)
  | whereNotInApply (field : String) (values : List Value)
  | whereExistsApply (sql : String) (bindings : Option (List Value))
  | whereGroupApply (group : WhereGroupEntry)
  | groupByApply (fields : List String)
  | havingApply (field : String) (operator : String) (value : Value)
  | orderByApply (field : String) (direction : Option String)
  | limitApply (n : Int)
  | offsetApply (n : Int)

/-- The builder calls issued for one aggregate entry: one call for each of the
five recognized types, and none at all otherwise (the source switch has no
default case). -/
def aggregateOps (a : AggregateOptions) : List QueryOp :=
  if a.type == "count" || a.type == "sum" || a.type == "avg"
      || a.type == "min" || a.type == "max" then
    [QueryOp.aggregateApply a.type a.field (jsOrStr a.aliasName (a.type ++ "_" ++ a.field))]
  else []

/-- The limit segment: `if (params.limit)` is JS-truthy, so an explicit `0` is
skipped. -/
def limitSegment (o : Option Int) : List QueryOp :=
  match o with
  | some n => if n == 0 then [] else [QueryOp.limitApply n]
  | none => []

/-- The offset segment, with the same truthiness guard. -/
def offsetSegment (o : Option Int) : List QueryOp :=
  match o with
  | some n => if n == 0 then [] else [QueryOp.offsetApply n]
  | none => []

/-- `QueryHandler.buildQuery` (sever-sdk): the ordered sequence of builder
operations, one segment per source `if` block, in source order. -/
def buildQuery (p : QueryParams) : List QueryOp :=
  ((p.ctes).getD []).map (fun c => QueryOp.withCte c.name c.query c.columns)
  ++ ((p.recursiveCtes).getD []).map
      (fun c => QueryOp.withRecursiveCte c.name c.initialQuery c.recursiveQuery c.unionAll)
  ++ ((p.windowFunctions).getD []).map (fun wf => QueryOp.selectWindow (simpleWindowSelect wf))
  ++ ((p.advancedWindows).getD []).map
      (fun wf => QueryOp.selectAdvancedWindow (buildWindowFunction wf))
  ++ ((p.filter).map (fun f => QueryOp.whereFilter f)).toList
  ++ ((p.rawExpressions).getD []).map (fun r => QueryOp.whereRawSql r.sql r.bindings)
  ++ ((p.aggregates).getD []).flatMap aggregateOps
  ++ ((p.whereRaw).getD []).map (fun c => QueryOp.whereCond c.field c.operator c.value)
  ++ ((p.whereBetween).getD []).map
      (fun c => QueryOp.whereBetweenApply c.field c.value.1 c.value.2)
  ++ ((p.whereNull).getD []).map (fun f => QueryOp.whereNullApply f)
  ++ ((p.whereNotNull).getD []).map (fun f => QueryOp.whereNotNullApply f)
  ++ ((p.whereIn).getD []).map (fun e => QueryOp.whereInApply e.1 e.2)
  ++ ((p.whereNotIn).getD []).map (fun e => QueryOp.whereNotInApply e.1 e.2)
  ++ ((p.whereExists).getD []).map (fun r => QueryOp.whereExistsApply r.sql r.bindings)
  ++ ((p.whereGroups).getD []).map (fun g => QueryOp.whereGroupApply g)
  ++ ((p.groupBy).map (fun g => QueryOp.groupByApply g)).toList
  ++ ((p.having).getD []).map (fun c => QueryOp.havingApply c.field c.operator c.value)
  ++ ((p.orderBy).getD []).map (fun o => QueryOp.orderByApply o.field o.direction)
  ++ limitSegment p.limit
  ++ offsetSegment p.offset

/-- The position of each clause kind in the fixed application order of §4.1. -/
def QueryOp.phase : QueryOp → Nat
  | .withCte _ _ _ => 0
  | .withRecursiveCte _ _ _ _ => 1
  | .selectWindow _ => 2
  | .selectAdvancedWindow _ => 3
  | .whereFilter _ => 4
  | .whereRawSql _ _ => 5
  | .aggregateApply _ _ _ => 6
  | .whereCond _ _ _ => 7
  | .whereBetweenApply _ _ _ => 8
  | .whereNullApply _ => 9
  | .whereNotNullApply _ => 10
  | .whereInApply _ _ => 11
  | .whereNotInApply _ _ => 12
  | .whereExistsApply _ _ => 13
  | .whereGroupApply _ => 14
  | .groupByApply _ => 15
  | .havingApply _ _ _ => 16
  | .orderByApply _ _ => 17
  | .limitApply _ => 18
  | .offsetApply _ => 19

/-- Filtering a list never increases its `sizeOf`. -/
theorem sizeOf_filter_le {α : Type} [SizeOf α] (p : α → Bool) :
    (l : List α) → sizeOf (l.filter p) ≤ sizeOf l
  | [] => Nat.le_refl _
  | x :: xs => by
    have ih := sizeOf_filter_le p xs
    simp only [List.filter_cons]
    split
    · simp only [List.cons.sizeOf_spec]; omega
    · simp only [List.cons.sizeOf_spec]; omega

/-- The clause list of an entry is structurally no larger than the entry. -/
theorem sizeOf_entryClauses_le (g : WhereGroupEntry) :
    sizeOf ((entryClauses g).getD []) ≤ sizeOf g := by
  cases g with
  | leaf f o v b =>
    simp only [entryClauses, Option.getD, WhereGroupEntry.leaf.sizeOf_spec,
      List.nil.sizeOf_spec]
    omega
  | node t cs =>
    simp only [entryClauses, Option.getD, WhereGroupEntry.node.sizeOf_spec]
    omega

/-- `QueryMiddleware.calculateNestedComplexity` (part_009): each group
contributes 1.5 per direct clause entry (nested groups included), plus the
recursive contribution of the entries that are themselves groups. -/
def calculateNestedComplexity : List WhereGroupEntry → ℚ
  | [] => 0
  | g :: rest =>
    (((entryClauses g).getD []).length : ℚ) * (3 / 2)
    + (if ((entryClauses g).getD []).any (fun c => (entryClauses c).isSome)
       then calculateNestedComplexity
          (((entryClauses g).getD []).filter (fun c => (entryClauses c).isSome))
       else 0)
    + calculateNestedComplexity rest
termination_by l => sizeOf l
decreasing_by
  · have h1 := sizeOf_filter_le (fun c => (entryClauses c).isSome) ((entryClauses g).getD [])
    have h2 := sizeOf_entryClauses_le g
    simp only [List.cons.sizeOf_spec]
    omega
  · simp only [List.cons.sizeOf_spec]
    omega

/-- `QueryMiddleware.calculateQueryComplexity` (part_009): the weighted clause
counts accumulated in source order. -/
def calculateQueryComplexity (p : QueryParams) : ℚ :=
  let complexity : ℚ := 0
  let complexity := complexity + ((p.whereRaw.getD []).length : ℚ) * 1
  let complexity := complexity + ((p.whereBetween.getD []).length : ℚ) * (3 / 2)
  let complexity := complexity + ((p.whereIn.getD []).length : ℚ) * 2
  let complexity := complexity + ((p.whereExists.getD []).length : ℚ) * 3
  let complexity := complexity + ((p.groupBy.getD []).length : ℚ) * 2
  let complexity := complexity + ((p.having.getD []).length : ℚ) * 2
  let complexity := complexity + ((p.windowFunctions.getD []).length : ℚ) * 3
  match p.whereGroups with
  | some gs => complexity + calculateNestedComplexity gs
  | none => complexity

mutual
/-- A JSON-style rendering of a value, used in the deterministic key
serialization. -/
def Value.toJson : Value → String
  | .vNull => "null"
  | .vBool b => if b then "true" else "false"
  | .vNum n => toString n
  | .vStr s => "\"" ++ s ++ "\""
  | .vArr vs => "[" ++ Value.listToJson vs ++ "]"

/-- Comma-joined rendering of a value list. -/
def Value.listToJson : List Value → String
  | [] => ""
  | [v] => Value.toJson v
  | v :: rest => Value.toJson v ++ "," ++ Value.listToJson rest
end

/-- Render an optional payload, marking absence. -/
def serializeOpt {α : Type} (f : α → String) : Option α → String
  | some a => f a
  | none => "_"

/-- Render a list of payloads. -/
def serializeList {α : Type} (f : α → String) (l : List α) : String :=
  "[" ++ String.intercalate "," (l.map f) ++ "]"

/-- Render a where clause for the key serialization. -/
def serializeWhereClause (c : WhereClause) : String :=
  "(" ++ c.field ++ "," ++ c.operator ++ "," ++ c.value.toJson ++ ","
      ++ serializeOpt id c.boolean ++ ")"

/-- Render a between clause. -/
def serializeWhereBetween (c : WhereBetweenClause) : String :=
  "(" ++ c.field ++ "," ++ c.value.1.toJson ++ "," ++ c.value.2.toJson ++ ")"

/-- Render an order-by clause. -/
def serializeOrderBy (c : OrderByClause) : String :=
  "(" ++ c.field ++ "," ++ serializeOpt id c.direction ++ ")"

/-- Render a having clause. -/
def serializeHaving (c : HavingClause) : String :=
  "(" ++ c.field ++ "," ++ c.operator ++ "," ++ c.value.toJson ++ ")"

/-- Render an aggregate entry. -/
def serializeAggregate (a : AggregateOptions) : String :=
  "(" ++ a.type ++ "," ++ a.field ++ "," ++ serializeOpt id a.aliasName ++ ")"

/-- Render a raw expression. -/
def serializeRawExpression (r : RawExpression) : String :=
  "(" ++ r.sql ++ "," ++ serializeOpt (serializeList Value.toJson) r.bindings ++ ")"

/-- Render a keyed value list, as in `whereIn`. -/
def serializeKeyedValues (e : String × List Value) : String :=
  "(" ++ e.1 ++ "," ++ serializeList Value.toJson e.2 ++ ")"

/-- Render a filter binding. -/
def serializeFilterPair (e : String × Value) : String :=
  "(" ++ e.1 ++ "," ++ e.2.toJson ++ ")"

mutual
/-- Render a where-group entry. -/
def serializeGroupEntry : WhereGroupEntry → String
  | .leaf f o v b =>
    "leaf(" ++ f ++ "," ++ o ++ "," ++ Value.toJson v ++ ","
        ++ (match b with | some s => s | none => "_") ++ ")"
  | .node t cs => "node(" ++ t ++ ",[" ++ serializeGroupEntries cs ++ "])"

/-- Render a list of where-group entries. -/
def serializeGroupEntries : List WhereGroupEntry → String
  | [] => ""
  | g :: rest => serializeGroupEntry g ++ ";" ++ serializeGroupEntries rest
end

/-- Render a simple window function. -/
def serializeWindowFunction (w : WindowFunction) : String :=
  "(" ++ w.type ++ "," ++ serializeOpt id w.field ++ "," ++ w.aliasName ++ ","
      ++ serializeOpt (serializeList id) w.partitionBy ++ ","
      ++ serializeOpt (serializeList serializeOrderBy) w.orderBy ++ ","
      ++ serializeOpt id w.frameClause ++ ")"

/-- Render an advanced window function. -/
def serializeAdvancedWindow (w : WindowFunctionAdvanced) : String :=
  "(" ++ w.type ++ "," ++ serializeOpt id w.field ++ "," ++ w.aliasName ++ ","
      ++ serializeOpt (fun o =>
            serializeOpt (serializeList id) o.partitionBy ++ ","
            ++ serializeOpt (serializeList serializeOrderBy) o.orderBy ++ ","
            ++ serializeOpt (fun f => f.type ++ "," ++ f.start.render ++ ","
                  ++ serializeOpt FrameBound.render f.endB) o.frame) w.over ++ ","
      ++ serializeOpt (serializeList serializeWhereClause) w.filter ++ ")"

/-- Render the cache configuration. -/
def serializeCacheConfig (c : CacheConfig) : String :=
  "(" ++ toString c.ttl ++ "," ++ serializeOpt id c.key ++ ","
      ++ serializeOpt (serializeList id) c.tags ++ ")"

mutual
/-- A deterministic serialization of the full IR, standing for
`JSON.stringify(params)` in the cache-key derivation. -/
def serializeParams : QueryParams → String
  | .mk filter whereRaw whereBetween whereNull whereNotNull whereIn whereNotIn
       whereExists whereGroups orderBy groupBy having aggregates rawExpressions
       limit offset windowFunctions ctes recursiveCtes advancedWindows cache =>
    serializeOpt (serializeList serializeFilterPair) filter
    ++ "|" ++ serializeOpt (serializeList serializeWhereClause) whereRaw
    ++ "|" ++ serializeOpt (serializeList serializeWhereBetween) whereBetween
    ++ "|" ++ serializeOpt (serializeList id) whereNull
    ++ "|" ++ serializeOpt (serializeList id) whereNotNull
    ++ "|" ++ serializeOpt (serializeList serializeKeyedValues) whereIn
    ++ "|" ++ serializeOpt (serializeList serializeKeyedValues) whereNotIn
    ++ "|" ++ serializeOpt (serializeList serializeRawExpression) whereExists
    ++ "|" ++ serializeOpt (fun gs => "[" ++ serializeGroupEntries gs ++ "]") whereGroups
    ++ "|" ++ serializeOpt (serializeList serializeOrderBy) orderBy
    ++ "|" ++ serializeOpt (serializeList id) groupBy
    ++ "|" ++ serializeOpt (serializeList serializeHaving) having
    ++ "|" ++ serializeOpt (serializeList serializeAggregate) aggregates
    ++ "|" ++ serializeOpt (serializeList serializeRawExpression) rawExpressions
    ++ "|" ++ serializeOpt (fun n => toString n) limit
    ++ "|" ++ serializeOpt (fun n => toString n) offset
    ++ "|" ++ serializeOpt (serializeList serializeWindowFunction) windowFunctions
    ++ "|" ++ (match ctes with
               | some cs => "[" ++ serializeCtes cs ++ "]"
               | none => "_")
    ++ "|" ++ (match recursiveCtes with
               | some cs => "[" ++ serializeRecCtes cs ++ "]"
               | none => "_")
    ++ "|" ++ serializeOpt (serializeList serializeAdvancedWindow) advancedWindows
    ++ "|" ++ serializeOpt serializeCacheConfig cache

/-- Render a CTE list, recursing into the nested IRs. -/
def serializeCtes : List CTE → String
  | [] => ""
  | .mk n q cols :: rest =>
    n ++ ":" ++ serializeParams q ++ ":" ++ serializeOpt (serializeList id) cols
      ++ ";" ++ serializeCtes rest

/-- Render a recursive-CTE list, recursing into both nested IRs. -/
def serializeRecCtes : List RecursiveCTE → String
  | [] => ""
  | .mk n iq rq ua :: rest =>
    n ++ ":" ++ serializeParams iq ++ ":" ++ serializeParams rq ++ ":"
      ++ serializeOpt (fun b => if b then "t" else "f") ua
      ++ ";" ++ serializeRecCtes rest
end

/-- `QueryMiddleware.generateCacheKey` (part_009): the explicit configured key
when present and truthy, else the serialization of the full IR, both under the
`query:` prefix. -/
def generateCacheKey (p : QueryParams) : String :=
  match p.cache with
  | some cfg =>
    (match cfg.key with
     | some k => if k != "" then "query:" ++ k else "query:" ++ serializeParams p
     | none => "query:" ++ serializeParams p)
  | none => "query:" ++ serializeParams p

/-- Modelled from the spec: the external key-value collaborator (ioredis) used
by the cache layer, which is not part of this repository.  Entries carry an
absolute expiry timestamp; `setex` stores a value that lives for `ttl` seconds
and `get` at or past the expiry is a miss (§4.3, §6).  The tag index is the
reverse map maintained through `sadd`. -/
structure RedisState where
  store : List (String × Value × Nat)
  tagIndex : List (String × List String)

/-- `redis.setex(key, ttl, value)` at the given current time. -/
def redisSetex (st : RedisState) (now : Nat) (key : String) (ttl : Nat)
    (v : Value) : RedisState :=
  { st with store := (key, v, now + ttl) :: st.store.filter (fun e => e.1 != key) }

/-- `redis.get(key)` at the given current time: a stored value still before
its expiry, otherwise a miss. -/
def redisGet (st : RedisState) (now : Nat) (key : String) : Option Value :=
  match st.store.find? (fun e => e.1 == key) with
  | some (_, v, expiry) => if now < expiry then some v else none
  | none => none

/-- `redis.sadd("tag:" + tag, key)`. -/
def redisSadd (st : RedisState) (tag : String) (key : String) : RedisState :=
  let tagKey := "tag:" ++ tag
  match st.tagIndex.find? (fun e => e.1 == tagKey) with
  | some (_, keys) =>
    { st with tagIndex :=
        (tagKey, if keys.contains key then keys else key :: keys)
          :: st.tagIndex.filter (fun e => e.1 != tagKey) }
  | none => { st with tagIndex := (tagKey, [key]) :: st.tagIndex }

/-- `QueryMiddleware.addCacheTags` (part_009). -/
def addCacheTags (st : RedisState) (key : String) : List String → RedisState
  | [] => st
  | tag :: rest => addCacheTags (redisSadd st tag key) key rest

/-- `QueryMiddleware.getCachedResult` (part_009): no lookup without a cache
config; otherwise a redis get under the derived key.  The stored JSON string
of a defined result is non-empty, hence truthy, so a hit is returned as is. -/
def getCachedResult (p : QueryParams) (st : RedisState) (now : Nat) : Option Value :=
  match p.cache with
  | none => none
  | some _ => redisGet st now (generateCacheKey p)

/-- `QueryMiddleware.cacheResult` (part_009): store the result under the
derived key with the configured ttl when the optional condition does not veto
it, then index the key under each configured tag. -/
def cacheResult (p : QueryParams) (result : Value) (now : Nat)
    (st : RedisState) : RedisState :=
  match p.cache with
  | none => st
  | some cfg =>
    let cacheKey := generateCacheKey p
    if cfg.condition.getD true then
      let st' := redisSetex st now cacheKey cfg.ttl result
      match cfg.tags with
      | some tags => if !tags.isEmpty then addCacheTags st' cacheKey tags else st'
      | none => st'
    else st

/-- A user context with no identity (a guest). -/
def guestCtx : UserContext := { userId := none, labels := [], teams := [] }

/-- A rule list consisting of a single bare `auth` rule. -/
def authOnlyRule : PermissionRule := { allow := RuleAllow.auth }

/-- C1: the claim says an `auth` rule yields Allow exactly when the identity
is present, and that `auth`/`guest` never both match.  The source's `auth`
case has no `break`: on an absent identity it falls through into the `guest`
check, so a bare `auth` rule allows a context with no identity at all. -/
theorem c1_auth_rule_allows_identityless_context :
    truthy guestCtx.userId = false
    ∧ evaluatePermission [authOnlyRule] guestCtx [] = Except.ok true := by
  exact ⟨rfl, rfl⟩

/-- Table permissions with no SELECT entry and an explicitly empty INSERT
rule list. -/
def demoTp3 : TablePermissions :=
  ⟨fun op => match op with
    | Operation.INSERT => some []
    | _ => none⟩

/-- C3: a missing operation entry raises the table-level
operation-not-allowed error (no rows are returned), while a present entry
with an empty rule list passes every row through unchanged. -/
theorem c3_missing_entry_vs_empty_rules (tableName : String) (op : Operation)
    (rows : List Row) (ctx : UserContext) (tp : TablePermissions) :
    (tp.operations op = none →
      enforcePermissions tableName op rows ctx (some tp)
        = Except.error (EnforceError.operationNotAllowed op tableName))
    ∧ (tp.operations op = some [] →
      enforcePermissions tableName op rows ctx (some tp) = Except.ok rows) := by
  constructor
  · intro h
    simp [enforcePermissions, h]
  · intro h
    simp [enforcePermissions, h]

/-- Witness for C3 at a concrete table, operation and row list. -/
theorem c3_missing_entry_vs_empty_rules_witness :
    enforcePermissions "posts" Operation.SELECT [[("id", Value.vNum 1)]] guestCtx
      (some demoTp3)
      = Except.error (EnforceError.operationNotAllowed Operation.SELECT "posts")
    ∧ enforcePermissions "posts" Operation.INSERT [[("id", Value.vNum 1)]] guestCtx
      (some demoTp3)
      = Except.ok [[("id", Value.vNum 1)]] :=
  ⟨(c3_missing_entry_vs_empty_rules "posts" Operation.SELECT
      [[("id", Value.vNum 1)]] guestCtx demoTp3).1 rfl,
   (c3_missing_entry_vs_empty_rules "posts" Operation.INSERT
      [[("id", Value.vNum 1)]] guestCtx demoTp3).2 rfl⟩

/-- An aggregate whose type is not one of count/sum/avg/min/max. -/
def medianAggregate : AggregateOptions :=
  { type := "median", field := "x", aliasName := some "m" }

/-- An IR whose only content is the unrecognized aggregate. -/
def medianParams : QueryParams :=
  QueryParams.mk none none none none none none none none none none none none
    (some [medianAggregate]) none none none none none none none none

/-- C5: the claim says an unrecognized aggregate type fails compilation with a
hard unsupported-feature error.  The source's aggregate switch has no default
case and `buildQuery` has no failure path at all: the unknown aggregate is
silently dropped and the compiled operation sequence is empty. -/
theorem c5_unknown_aggregate_silently_dropped :
    medianParams.aggregates = some [medianAggregate]
    ∧ buildQuery medianParams = [] := by
  exact ⟨rfl, rfl⟩

/-- The claim's simple `row_number` window. -/
def rnSimple : WindowFunction :=
  { type := "row_number", aliasName := "rn", partitionBy := some ["dept"],
    orderBy := some [{ field := "salary", direction := some "desc" }] }

/-- The same window as an advanced window. -/
def rnAdvanced : WindowFunctionAdvanced :=
  { type := "row_number", aliasName := "rn",
    over := some { partitionBy := some ["dept"],
                   orderBy := some [{ field := "salary", direction := some "desc" }] } }

/-- C8: the claim says every window (simple or advanced) compiles the
`row_number` call fragment as `ROW_NUMBER()`.  The advanced path
(`buildWindowFunction`) does; the simple path's guard is inverted, so for
`row_number` it emits only the bare bound column (here `*`) with no function
call at all, in front of an otherwise correct OVER fragment. -/
theorem c8_simple_row_number_drops_function_call :
    simpleWindowSelect rnSimple
      = "* OVER( PARTITION BY dept ORDER BY salary desc) as rn"
    ∧ buildWindowFunction rnAdvanced
      = "ROW_NUMBER() OVER (PARTITION BY dept ORDER BY salary desc) AS rn" := by
  exact ⟨rfl, rfl⟩

/-- Whether the evaluator returns a boolean (rather than throwing) on a row. -/
def evalOk (rules : List PermissionRule) (ctx : UserContext) (row : Row) : Bool :=
  match evaluatePermission rules ctx row with
  | Except.ok _ => true
  | Except.error _ => false

/-- Whether the evaluator allows a row. -/
def evalAllows (rules : List PermissionRule) (ctx : UserContext) (row : Row) : Bool :=
  match evaluatePermission rules ctx row with
  | Except.ok true => true
  | _ => false

/-- When every row evaluates to a boolean, the throwing filter agrees with the
pure filter by the allow predicate. -/
theorem filterRows_eq_filter (rules : List PermissionRule) (ctx : UserContext) :
    ∀ rows : List Row, (∀ r ∈ rows, evalOk rules ctx r = true) →
      filterRows rules ctx rows = Except.ok (rows.filter (evalAllows rules ctx))
  | [], _ => rfl
  | row :: rest, h => by
    have hr : evalOk rules ctx row = true := h row (by simp)
    have ih := filterRows_eq_filter rules ctx rest (fun r hm => h r (by simp [hm]))
    unfold filterRows
    unfold evalOk at hr
    cases he : evaluatePermission rules ctx row with
    | error e => rw [he] at hr; simp at hr
    | ok b =>
      rw [ih]
      cases b <;> simp [List.filter_cons, evalAllows, he]

/-- C2: with at least one fieldCheck rule in the list, the gate evaluates per
row and returns exactly the rows the evaluator allows, silently dropping the
rest (assuming each row's evaluation returns a boolean, as it does for
fieldCheck-style rule lists; a thrown customSql context error would instead
propagate). -/
theorem c2_fieldCheck_filters_per_row (tableName : String) (op : Operation)
    (rows : List Row) (ctx : UserContext) (tp : TablePermissions)
    (rules : List PermissionRule)
    (htp : tp.operations op = some rules)
    (hfc : rules.any (fun r => r.allow == RuleAllow.fieldCheck) = true)
    (hok : ∀ r ∈ rows, evalOk rules ctx r = true) :
    enforcePermissions tableName op rows ctx (some tp)
      = Except.ok (rows.filter (evalAllows rules ctx)) := by
  have hne : rules.isEmpty = false := by
    cases rules with
    | nil => simp at hfc
    | cons a l => rfl
  simp only [enforcePermissions]
  rw [htp]
  simp only [hne, hfc, Bool.not_true, Bool.false_eq_true, if_false]
  rw [filterRows_eq_filter rules ctx rows hok]

/-- The claim's fieldCheck rule comparing the row's ownerId with the
context's userId. -/
def ownerRule : PermissionRule :=
  { allow := RuleAllow.fieldCheck,
    fieldCheck := some { field := "ownerId", operator := "===",
                         valueType := "userContext", value := Value.vStr "userId" } }

/-- The claim's user with userId 5. -/
def demoUser : UserContext := { userId := some (Value.vNum 5), labels := [], teams := [] }

/-- The claim's first row, owned by user 5. -/
def demoRow1 : Row := [("id", Value.vNum 1), ("ownerId", Value.vNum 5)]

/-- The claim's second row, owned by user 9. -/
def demoRow2 : Row := [("id", Value.vNum 2), ("ownerId", Value.vNum 9)]

/-- Table permissions granting SELECT under the ownerId fieldCheck rule. -/
def demoTp2 : TablePermissions :=
  ⟨fun op => match op with
    | Operation.SELECT => some [ownerRule]
    | _ => none⟩

/-- Witness for C2 at the claim's concrete example: only the row owned by
user 5 survives. -/
theorem c2_fieldCheck_filters_per_row_witness :
    enforcePermissions "posts" Operation.SELECT [demoRow1, demoRow2] demoUser
      (some demoTp2) = Except.ok [demoRow1] := by
  have h := c2_fieldCheck_filters_per_row "posts" Operation.SELECT
    [demoRow1, demoRow2] demoUser demoTp2 [ownerRule] rfl (by decide)
    (by
      intro r hr
      rcases List.mem_cons.1 hr with rfl | hr2
      · rfl
      · rcases List.mem_cons.1 hr2 with rfl | hr3
        · rfl
        · cases hr3)
  rw [h]
  rfl

/-- A successful throwing filter returns a subsequence of its input. -/
theorem filterRows_sublist (rules : List PermissionRule) (ctx : UserContext) :
    ∀ (rows out : List Row), filterRows rules ctx rows = Except.ok out →
      out.Sublist rows
  | [], out, h => by
    simp only [filterRows, Except.ok.injEq] at h
    rw [← h]
  | row :: rest, out, h => by
    unfold filterRows at h
    cases he : evaluatePermission rules ctx row with
    | error e => rw [he] at h; simp at h
    | ok b =>
      rw [he] at h
      cases hf : filterRows rules ctx rest with
      | error e => rw [hf] at h; simp at h
      | ok out' =>
        rw [hf] at h
        have ih := filterRows_sublist rules ctx rest out' hf
        cases b
        · simp only [Except.ok.injEq, if_false, Bool.false_eq_true] at h
          rw [← h]
          exact ih.cons row
        · simp only [Except.ok.injEq, if_true] at h
          rw [← h]
          exact ih.cons₂ row

/-- C10: whenever the gate returns a row list, it is a subsequence of the
input row list: each surviving row is an input row with all fields unchanged,
nothing is added or duplicated, and input order is preserved. -/
theorem c10_returned_rows_sublist (tableName : String) (op : Operation)
    (rows : List Row) (ctx : UserContext) (tps : Option TablePermissions)
    (out : List Row)
    (h : enforcePermissions tableName op rows ctx tps = Except.ok out) :
    out.Sublist rows := by
  match tps with
  | none => simp [enforcePermissions] at h
  | some tp =>
    simp only [enforcePermissions] at h
    split at h
    · simp at h
    · split at h
      · simp only [Except.ok.injEq] at h
        subst h
        exact List.Sublist.refl rows
      · split at h
        · split at h
          · simp at h
          · simp only [Except.ok.injEq] at h
            subst h
            exact List.Sublist.refl rows
          · simp at h
        · split at h
          · simp at h
          · rename_i out' hflt
            simp only [Except.ok.injEq] at h
            subst h
            exact filterRows_sublist _ ctx rows out' hflt

/-- Witness for C10 at the concrete fieldCheck example. -/
theorem c10_returned_rows_sublist_witness :
    List.Sublist [demoRow1] [demoRow1, demoRow2] :=
  c10_returned_rows_sublist "posts" Operation.SELECT [demoRow1, demoRow2]
    demoUser (some demoTp2) [demoRow1] (by rfl)

/-- C6: with RLS enforced and a user present, each mutation endpoint returns
the gate's decision on the payload and issues no storage write at all, so if
any record of the mutation is rejected, no partial write has occurred; for a
valid create payload the result is exactly the gate's decision on the INSERT
payload. -/
theorem c6_mutations_blocked_pre_write (tableName : String)
    (records data fetched : List Row) (id : Value) (u : UserContext)
    (tp : Option TablePermissions) :
    (createHandler true tableName records (some u) tp).2 = []
    ∧ (updateHandler true tableName id data (some u) tp).2 = []
    ∧ (deleteHandler true tableName id fetched (some u) tp).2 = []
    ∧ ((records.isEmpty || records.any (fun r => r.isEmpty)) = false →
        (createHandler true tableName records (some u) tp).1
          = enforcePermissions tableName Operation.INSERT records u tp) := by
  refine ⟨?_, rfl, rfl, ?_⟩
  · unfold createHandler
    split <;> rfl
  · intro h
    simp [createHandler, h]

/-- Witness for C6 at a concrete create payload. -/
theorem c6_mutations_blocked_pre_write_witness :
    (createHandler true "posts" [demoRow1] (some demoUser) (some demoTp2)).1
      = enforcePermissions "posts" Operation.INSERT [demoRow1] demoUser (some demoTp2)
    ∧ (createHandler true "posts" [demoRow1] (some demoUser) (some demoTp2)).2 = [] :=
  ⟨(c6_mutations_blocked_pre_write "posts" [demoRow1] [] [] (Value.vNum 1)
      demoUser (some demoTp2)).2.2.2 (by decide),
   (c6_mutations_blocked_pre_write "posts" [demoRow1] [] [] (Value.vNum 1)
      demoUser (some demoTp2)).1⟩

/-- Two raw where clauses, as in the claim's example. -/
def twoWhereRaw : List WhereClause :=
  [{ field := "a", operator := "=", value := Value.vNum 1 },
   { field := "b", operator := "=", value := Value.vNum 2 }]

/-- The claim's example with a one-field groupBy. -/
def exampleOneFieldGroupBy : QueryParams :=
  QueryParams.mk none (some twoWhereRaw) none none none none none none none none
    (some ["dept"]) none none none none none none none none none none

/-- The claim's example with a two-field groupBy. -/
def exampleTwoFieldGroupBy : QueryParams :=
  QueryParams.mk none (some twoWhereRaw) none none none none none none none none
    (some ["dept", "team"]) none none none none none none none none none none

/-- C7 counterexample: the claim says an IR with two whereRaw clauses, one
groupBy of any field count and nothing else scores exactly 4; with two grouped
fields the source scores 2 + 2x2 = 6. -/
theorem c7_two_field_groupby_scores_six :
    calculateQueryComplexity exampleTwoFieldGroupBy = 6
    ∧ calculateQueryComplexity exampleTwoFieldGroupBy ≠ 4 := by
  have h : calculateQueryComplexity exampleTwoFieldGroupBy = 6 := by
    norm_num [calculateQueryComplexity, exampleTwoFieldGroupBy,
      QueryParams.whereRaw, QueryParams.whereBetween, QueryParams.whereIn,
      QueryParams.whereExists, QueryParams.groupBy, QueryParams.having,
      QueryParams.windowFunctions, QueryParams.whereGroups, twoWhereRaw]
  refine ⟨h, ?_⟩
  rw [h]
  norm_num

/-- C7 as amended: the complexity score is exactly the weighted sum
1x|whereRaw| + 1.5x|whereBetween| + 2x|whereIn keys| + 3x|whereExists|
+ 2x|groupBy fields| + 2x|having| + 3x|windowFunctions| plus the recursive
whereGroups contribution (1.5 per direct clause of each group, plus the same
contribution of nested sub-groups); the groupBy weight applies per grouped
field, so the claim's example scores 4 exactly when the groupBy has one
field. -/
theorem c7_complexity_formula :
    (∀ p : QueryParams,
      calculateQueryComplexity p =
        ((p.whereRaw.getD []).length : ℚ) * 1
        + ((p.whereBetween.getD []).length : ℚ) * (3 / 2)
        + ((p.whereIn.getD []).length : ℚ) * 2
        + ((p.whereExists.getD []).length : ℚ) * 3
        + ((p.groupBy.getD []).length : ℚ) * 2
        + ((p.having.getD []).length : ℚ) * 2
        + ((p.windowFunctions.getD []).length : ℚ) * 3
        + (match p.whereGroups with
           | some gs => calculateNestedComplexity gs
           | none => 0))
    ∧ calculateQueryComplexity exampleOneFieldGroupBy = 4 := by
  constructor
  · intro p
    unfold calculateQueryComplexity
    cases hw : p.whereGroups with
    | none => ring
    | some gs => ring
  · norm_num [calculateQueryComplexity, exampleOneFieldGroupBy,
      QueryParams.whereRaw, QueryParams.whereBetween, QueryParams.whereIn,
      QueryParams.whereExists, QueryParams.groupBy, QueryParams.having,
      QueryParams.windowFunctions, QueryParams.whereGroups, twoWhereRaw]

/-- Adding a key to the tag index never touches the value store. -/
theorem redisSadd_store (st : RedisState) (tag key : String) :
    (redisSadd st tag key).store = st.store := by
  cases hfind : List.find? (fun e => e.1 == ("tag:" ++ tag)) st.tagIndex with
  | none => simp [redisSadd, hfind]
  | some e =>
    obtain ⟨a, ks⟩ := e
    simp [redisSadd, hfind]

/-- Tag indexing a key leaves the value store unchanged. -/
theorem addCacheTags_store (key : String) :
    ∀ (tags : List String) (st : RedisState),
      (addCacheTags st key tags).store = st.store
  | [], _ => rfl
  | t :: rest, st => by
    unfold addCacheTags
    rw [addCacheTags_store key rest (redisSadd st t key), redisSadd_store]

/-- After caching, the store holds the result under the derived key with
expiry `now + ttl`, in front of the other keys. -/
theorem cacheResult_store (p : QueryParams) (cfg : CacheConfig) (result : Value)
    (now : Nat) (st : RedisState)
    (hc : p.cache = some cfg) (hcond : cfg.condition.getD true = true) :
    (cacheResult p result now st).store
      = (generateCacheKey p, result, now + cfg.ttl)
        :: st.store.filter (fun e => e.1 != generateCacheKey p) := by
  unfold cacheResult
  rw [hc]
  simp only [hcond, if_true]
  cases htags : cfg.tags with
  | none => rfl
  | some ts =>
    cases ts with
    | nil => simp [redisSetex]
    | cons t rest => simp [addCacheTags_store, redisSetex]

/-- C9: a cache set followed immediately by a get under the same derived key
returns exactly the stored result; a get at or past the ttl is a miss; the key
is the configured explicit key when present (else the deterministic
serialization of the full IR), so identical IRs always derive identical
keys. -/
theorem c9_cache_round_trip (p : QueryParams) (cfg : CacheConfig)
    (result : Value) (now : Nat) (st : RedisState)
    (hc : p.cache = some cfg) (httl : 0 < cfg.ttl)
    (hcond : cfg.condition.getD true = true) :
    getCachedResult p (cacheResult p result now st) now = some result
    ∧ (∀ later : Nat, now + cfg.ttl ≤ later →
        getCachedResult p (cacheResult p result now st) later = none)
    ∧ (∀ k : String, cfg.key = some k → k ≠ "" →
        generateCacheKey p = "query:" ++ k)
    ∧ (∀ q : QueryParams, p = q → generateCacheKey p = generateCacheKey q) := by
  have hstore := cacheResult_store p cfg result now st hc hcond
  refine ⟨?_, ?_, ?_, ?_⟩
  · unfold getCachedResult
    rw [hc]
    unfold redisGet
    rw [hstore]
    simp only [List.find?_cons, beq_self_eq_true]
    simp [Nat.lt_add_of_pos_right httl]
  · intro later hlater
    unfold getCachedResult
    rw [hc]
    unfold redisGet
    rw [hstore]
    simp only [List.find?_cons, beq_self_eq_true]
    simp [Nat.not_lt.mpr hlater]
  · intro k hk hne
    simp only [generateCacheKey, hc, hk]
    simp [hne]
  · intro q hq
    rw [hq]

/-- An IR consisting only of a cache config with an explicit key, ttl 60 and
one tag. -/
def c9Params : QueryParams :=
  QueryParams.mk none none none none none none none none none none none none
    none none none none none none none none
    (some { ttl := 60, key := some "k1", tags := some ["t1"] })

/-- The empty key-value store. -/
def emptyRedis : RedisState := ⟨[], []⟩

/-- Witness for C9: set at time 0 with ttl 60, get at 0 hits, get at 60
misses, and the derived key is the configured one. -/
theorem c9_cache_round_trip_witness :
    getCachedResult c9Params (cacheResult c9Params (Value.vNum 42) 0 emptyRedis) 0
      = some (Value.vNum 42)
    ∧ getCachedResult c9Params (cacheResult c9Params (Value.vNum 42) 0 emptyRedis) 60
      = none
    ∧ generateCacheKey c9Params = "query:k1" := by
  have h := c9_cache_round_trip c9Params
    { ttl := 60, key := some "k1", tags := some ["t1"] }
    (Value.vNum 42) 0 emptyRedis rfl (by decide) rfl
  exact ⟨h.1, h.2.1 60 (by decide), h.2.2.1 "k1" rfl (by decide)⟩

/-- A list of equal naturals is sorted. -/
theorem sorted_of_const {c : Nat} :
    ∀ {l : List Nat}, (∀ x ∈ l, x = c) → l.Sorted (fun a b => a ≤ b)
  | [], _ => List.sorted_nil
  | x :: xs, h => by
    refine (List.sorted_cons).2 ⟨?_, sorted_of_const (fun y hy => h y (by simp [hy]))⟩
    intro b hb
    rw [h x (by simp), h b (by simp [hb])]

/-- Prepending a block of constant value `c` to a sorted tail bounded below by
some `c' ≥ c` keeps the whole list sorted and bounded below by `c`. -/
theorem sortedFrom_append {c : Nat} {l rest : List Nat} (c' : Nat)
    (hcc : c ≤ c')
    (hl : ∀ x ∈ l, x = c)
    (hrest : rest.Sorted (fun a b => a ≤ b))
    (hge : ∀ x ∈ rest, c' ≤ x) :
    (l ++ rest).Sorted (fun a b => a ≤ b) ∧ ∀ x ∈ l ++ rest, c ≤ x := by
  constructor
  · refine List.pairwise_append.2 ⟨sorted_of_const hl, hrest, ?_⟩
    intro a ha b hb
    rw [hl a ha]
    exact le_trans hcc (hge b hb)
  · intro x hx
    rcases List.mem_append.1 hx with hx | hx
    · rw [hl x hx]
    · exact le_trans hcc (hge x hx)

/-- Every phase in a mapped segment equals the segment's constant phase. -/
theorem phase_of_map {α : Type} (g : α → QueryOp) (c : Nat)
    (hg : ∀ a, (g a).phase = c) (l : List α) :
    ∀ x ∈ (l.map g).map QueryOp.phase, x = c := by
  intro x hx
  simp only [List.map_map, List.mem_map, Function.comp] at hx
  obtain ⟨a, _, rfl⟩ := hx
  exact hg a

/-- The optional singleton segments (filter, groupBy) also have constant
phase. -/
theorem phase_of_optSingleton {α : Type} (g : α → QueryOp) (c : Nat)
    (hg : ∀ a, (g a).phase = c) (o : Option α) :
    ∀ x ∈ ((o.map g).toList).map QueryOp.phase, x = c := by
  cases o with
  | none => intro x hx; simp at hx
  | some a =>
    intro x hx
    simp only [Option.map_some', Option.toList_some, List.map_cons, List.map_nil,
      List.mem_singleton] at hx
    rw [hx, hg a]

/-- The aggregate segment only ever emits phase-6 operations. -/
theorem phase_of_aggregates (l : List AggregateOptions) :
    ∀ x ∈ (l.flatMap aggregateOps).map QueryOp.phase, x = 6 := by
  intro x hx
  simp only [List.mem_map, List.mem_flatMap] at hx
  obtain ⟨op, ⟨a, _, hop⟩, rfl⟩ := hx
  unfold aggregateOps at hop
  split at hop
  · simp only [List.mem_singleton] at hop
    rw [hop]
    rfl
  · cases hop

/-- The limit segment only ever emits the phase-18 operation. -/
theorem phase_of_limitSegment (o : Option Int) :
    ∀ x ∈ (limitSegment o).map QueryOp.phase, x = 18 := by
  cases o with
  | none => intro x hx; simp [limitSegment] at hx
  | some n =>
    intro x hx
    by_cases h : n == 0
    · simp [limitSegment, h] at hx
    · simp only [limitSegment, h, Bool.false_eq_true, if_false, List.map_cons,
        List.map_nil, List.mem_singleton] at hx
      rw [hx]
      rfl

/-- The offset segment only ever emits the phase-19 operation. -/
theorem phase_of_offsetSegment (o : Option Int) :
    ∀ x ∈ (offsetSegment o).map QueryOp.phase, x = 19 := by
  cases o with
  | none => intro x hx; simp [offsetSegment] at hx
  | some n =>
    intro x hx
    by_cases h : n == 0
    · simp [offsetSegment, h] at hx
    · simp only [offsetSegment, h, Bool.false_eq_true, if_false, List.map_cons,
        List.map_nil, List.mem_singleton] at hx
      rw [hx]
      rfl

/-- C4: for every IR, the compiled operation sequence applies clauses in the
fixed order of §4.1: the phases of the operations in `buildQuery p` are
monotonically nondecreasing, with one phase per clause kind in the claimed
order. -/
theorem c4_fixed_clause_order (p : QueryParams) :
    ((buildQuery p).map QueryOp.phase).Sorted (fun a b => a ≤ b) := by
  unfold buildQuery
  simp only [List.map_append, List.append_assoc]
  have h19 : ((offsetSegment p.offset).map QueryOp.phase).Sorted (fun a b => a ≤ b)
      ∧ ∀ x ∈ (offsetSegment p.offset).map QueryOp.phase, 19 ≤ x := by
    refine ⟨sorted_of_const (phase_of_offsetSegment p.offset), ?_⟩
    intro x hx
    rw [phase_of_offsetSegment p.offset x hx]
  have h18 := sortedFrom_append 19 (by omega) (phase_of_limitSegment p.limit)
    h19.1 h19.2
  have h17 := sortedFrom_append 18 (by omega)
    (phase_of_map (fun o => QueryOp.orderByApply o.field o.direction) 17
      (fun _ => rfl) ((p.orderBy).getD [])) h18.1 h18.2
  have h16 := sortedFrom_append 17 (by omega)
    (phase_of_map (fun c => QueryOp.havingApply c.field c.operator c.value) 16
      (fun _ => rfl) ((p.having).getD [])) h17.1 h17.2
  have h15 := sortedFrom_append 16 (by omega)
    (phase_of_optSingleton (fun g => QueryOp.groupByApply g) 15
      (fun _ => rfl) p.groupBy) h16.1 h16.2
  have h14 := sortedFrom_append 15 (by omega)
    (phase_of_map (fun g => QueryOp.whereGroupApply g) 14
      (fun _ => rfl) ((p.whereGroups).getD [])) h15.1 h15.2
  have h13 := sortedFrom_append 14 (by omega)
    (phase_of_map (fun r => QueryOp.whereExistsApply r.sql r.bindings) 13
      (fun _ => rfl) ((p.whereExists).getD [])) h14.1 h14.2
  have h12 := sortedFrom_append 13 (by omega)
    (phase_of_map (fun e => QueryOp.whereNotInApply e.1 e.2) 12
      (fun _ => rfl) ((p.whereNotIn).getD [])) h13.1 h13.2
  have h11 := sortedFrom_append 12 (by omega)
    (phase_of_map (fun e => QueryOp.whereInApply e.1 e.2) 11
      (fun _ => rfl) ((p.whereIn).getD [])) h12.1 h12.2
  have h10 := sortedFrom_append 11 (by omega)
    (phase_of_map (fun f => QueryOp.whereNotNullApply f) 10
      (fun _ => rfl) ((p.whereNotNull).getD [])) h11.1 h11.2
  have h9 := sortedFrom_append 10 (by omega)
    (phase_of_map (fun f => QueryOp.whereNullApply f) 9
      (fun _ => rfl) ((p.whereNull).getD [])) h10.1 h10.2
  have h8 := sortedFrom_append 9 (by omega)
    (phase_of_map (fun c => QueryOp.whereBetweenApply c.field c.value.1 c.value.2) 8
      (fun _ => rfl) ((p.whereBetween).getD [])) h9.1 h9.2
  have h7 := sortedFrom_append 8 (by omega)
    (phase_of_map (fun c => QueryOp.whereCond c.field c.operator c.value) 7
      (fun _ => rfl) ((p.whereRaw).getD [])) h8.1 h8.2
  have h6 := sortedFrom_append 7 (by omega)
    (phase_of_aggregates ((p.aggregates).getD [])) h7.1 h7.2
  have h5 := sortedFrom_append 6 (by omega)
    (phase_of_map (fun r => QueryOp.whereRawSql r.sql r.bindings) 5
      (fun _ => rfl) ((p.rawExpressions).getD [])) h6.1 h6.2
  have h4 := sortedFrom_append 5 (by omega)
    (phase_of_optSingleton (fun f => QueryOp.whereFilter f) 4
      (fun _ => rfl) p.filter) h5.1 h5.2
  have h3 := sortedFrom_append 4 (by omega)
    (phase_of_map (fun wf => QueryOp.selectAdvancedWindow (buildWindowFunction wf)) 3
      (fun _ => rfl) ((p.advancedWindows).getD [])) h4.1 h4.2
  have h2 := sortedFrom_append 3 (by omega)
    (phase_of_map (fun wf => QueryOp.selectWindow (simpleWindowSelect wf)) 2
      (fun _ => rfl) ((p.windowFunctions).getD [])) h3.1 h3.2
  have h1 := sortedFrom_append 2 (by omega)
    (phase_of_map
      (fun c => QueryOp.withRecursiveCte c.name c.initialQuery c.recursiveQuery c.unionAll) 1
      (fun _ => rfl) ((p.recursiveCtes).getD [])) h2.1 h2.2
  have h0 := sortedFrom_append 1 (by omega)
    (phase_of_map (fun c => QueryOp.withCte c.name c.query c.columns) 0
      (fun _ => rfl) ((p.ctes).getD [])) h1.1 h1.2
  exact h0.1
